import Mathlib

/-!
Verification development for the gitsync branch synchronization engine.

The repository drives git through one-shot commands and a Bubble Tea style
message loop.  We embed the engine shallowly: every external git command is
mediated by an explicit environment, GitEnv, that fixes each command result,
and every function additionally returns the ordered list of git operations,
GitOp, it invoked, so that claims about which operations run (and in which
order) become statements about this trace.
-/

namespace GitSync

/-- Substring test, mirroring Go strings.Contains (hay, needle). -/
def strContains (hay needle : String) : Bool :=
  decide (List.IsInfix needle.toList hay.toList)

/-- ASCII lower-casing of one character. -/
def charToLower (c : Char) : Char :=
  if c.isUpper then Char.ofNat (c.toNat + 32) else c

/-- Lower-casing, mirroring Go strings.ToLower on ASCII names. -/
def strToLower (s : String) : String :=
  (s.toList.map charToLower).asString

/-- Strip surrounding whitespace, mirroring Go strings.TrimSpace. -/
def strTrim (s : String) : String :=
  (((s.toList.dropWhile Char.isWhitespace).reverse.dropWhile
      Char.isWhitespace).reverse).asString

/-- Accumulator loop splitting a character list into whitespace-separated
fields. -/
def fieldsAux (acc : List Char) : List Char → List String
  | [] => if acc = [] then [] else [acc.reverse.asString]
  | c :: rest =>
    if c.isWhitespace then
      if acc = [] then fieldsAux [] rest
      else acc.reverse.asString :: fieldsAux [] rest
    else fieldsAux (c :: acc) rest

/-- Whitespace-separated fields of a string, mirroring Go strings.Fields. -/
def goFields (s : String) : List String :=
  fieldsAux [] s.toList

/-- Decimal parse of a count, mirroring Go fmt.Sscanf with a numeric verb
on rev-list output. -/
def parseNat (s : String) : Option Nat :=
  let l := s.toList
  if l ≠ [] ∧ l.all Char.isDigit then
    .some (l.foldl (fun n c => n * 10 + (c.toNat - 48)) 0)
  else .none

/-- Branch record, from the Branch struct in the git layer. -/
structure Branch where
  name : String := ""
  description : String := ""
  behind : Nat := 0
  ahead : Nat := 0
  lastCommit : String := ""
  selected : Bool := false
  status : String := "ok"
deriving Repr, DecidableEq

instance : Inhabited Branch := ⟨{}⟩

/-- Configuration value, from the Config struct. -/
structure Config where
  baseBranch : String := ""
  upstreamRemote : String := ""
  originRemote : String := "origin"
  excludePatterns : List String := []
deriving Repr, DecidableEq

instance : Inhabited Config := ⟨{}⟩

/-- One git operation invocation, recorded in the trace. -/
inductive GitOp where
  | fetch (remote branch : String)
  | revListAhead (branch upstreamRef : String)
  | checkout (branch : String)
  | resetHard (ref : String)
  | push (remote branch : String)
  | rebase (onto : String)
  | rebaseAbort
  | deleteLocal (branch : String)
  | deleteRemote (branch : String)
  | stashSave
  | stashPop
  | statusQuery
  | setTag (branch desc : String)
  | unsetTag (branch : String)
deriving Repr, DecidableEq

/-- Environment fixing the result of every external git command. -/
structure GitEnv where
  localBranchesRes : Except String (List String)
  branchTag : String → String
  logLastCommit : String → Except String String
  revListCounts : String → String → Except String String
  revListOnly : String → String → Except String String
  fetchOk : String → String → Bool
  checkoutOk : String → Bool
  resetOk : String → Bool
  pushOk : String → String → Bool
  rebaseOk : String → String → Bool
  deleteLocalRes : String → Except String Unit
  deleteRemoteRes : String → Except String Unit
  stashRes : Except String Unit
  hasUncommitted : Bool

/-- GetBranchTag reads the per-branch description from git config. -/
def GetBranchTag (env : GitEnv) (branchName : String) : String :=
  env.branchTag branchName

/-- GetBranchInfo builds the Branch record for one branch.  Every return
path of the source returns a non-error result; the Except codomain mirrors
the Go signature. -/
def GetBranchInfo (env : GitEnv) (branchName baseBranch : String) :
    Except String Branch :=
  let branch0 : Branch := { name := branchName, status := "ok" }
  let branch1 := { branch0 with description := GetBranchTag env branchName }
  let branch2 :=
    match env.logLastCommit branchName with
    | .ok out => { branch1 with lastCommit := strTrim out }
    | .error _ => branch1
  let branch3 :=
    match env.revListCounts baseBranch branchName with
    | .ok out =>
      match goFields out with
      | [l, r] =>
        let behind := (parseNat l).getD 0
        let ahead := (parseNat r).getD 0
        let b := { branch2 with behind := behind, ahead := ahead }
        if behind > 0 then { b with status := "behind" } else b
      | _ => branch2
    | .error _ => branch2
  .ok branch3

/-- Loop body of GetBranchesWithInfo: skip the base branch, skip names
containing an exclude pattern, skip a branch whose info query fails. -/
def collectBranches (env : GitEnv) (baseBranch : String)
    (excludePatterns : List String) : List String → List Branch
  | [] => []
  | name :: rest =>
    if name = baseBranch then
      collectBranches env baseBranch excludePatterns rest
    else if excludePatterns.any (fun pattern => strContains name pattern) then
      collectBranches env baseBranch excludePatterns rest
    else
      match GetBranchInfo env name baseBranch with
      | .error _ => collectBranches env baseBranch excludePatterns rest
      | .ok branch => branch :: collectBranches env baseBranch excludePatterns rest

/-- GetBranchesWithInfo lists local branches and collects their info. -/
def GetBranchesWithInfo (env : GitEnv) (baseBranch : String)
    (excludePatterns : List String) : Except String (List Branch) :=
  match env.localBranchesRes with
  | .error e => .error e
  | .ok branchNames => .ok (collectBranches env baseBranch excludePatterns branchNames)

/-- FetchUpstream runs git fetch; the Bool is success. -/
def FetchUpstream (env : GitEnv) (remote baseBranch : String) :
    List GitOp × Bool :=
  ([GitOp.fetch remote baseBranch], env.fetchOk remote baseBranch)

/-- The diverged-resolve-manually error message of UpdateBaseBranch. -/
def divergedMsg (baseBranch upstreamRef : String) : String :=
  "local base branch \x27" ++ baseBranch ++ "\x27 has diverged from \x27" ++
    upstreamRef ++ "\x27. Please resolve manually"

/-- UpdateBaseBranch: divergence check, then checkout, hard reset and
lease-protected push of the base branch. -/
def UpdateBaseBranch (env : GitEnv) (baseBranch remote : String) :
    List GitOp × Except String Unit :=
  let upstreamRef := remote ++ "/" ++ baseBranch
  let t0 := [GitOp.revListAhead baseBranch upstreamRef]
  match env.revListOnly baseBranch remote with
  | .error e => (t0, .error ("could not check for branch divergence: " ++ e))
  | .ok output =>
    if strTrim output ≠ "" then
      (t0, .error (divergedMsg baseBranch upstreamRef))
    else
      let t1 := t0 ++ [GitOp.checkout baseBranch]
      if env.checkoutOk baseBranch = false then
        (t1, .error ("failed to checkout " ++ baseBranch))
      else
        let t2 := t1 ++ [GitOp.resetHard upstreamRef]
        if env.resetOk upstreamRef = false then
          (t2, .error ("failed to reset to " ++ upstreamRef))
        else
          let t3 := t2 ++ [GitOp.push "origin" baseBranch]
          if env.pushOk "origin" baseBranch = false then
            (t3, .error "failed to push to origin")
          else
            (t3, .ok ())

/-- RebaseBranch: checkout the branch, rebase onto the base; on a rebase
failure run rebase abort and report a conflict. -/
def RebaseBranch (env : GitEnv) (branchName baseBranch : String) :
    List GitOp × Except String Unit :=
  if env.checkoutOk branchName = false then
    ([GitOp.checkout branchName], .error "failed to checkout")
  else if env.rebaseOk branchName baseBranch = false then
    ([GitOp.checkout branchName, GitOp.rebase baseBranch, GitOp.rebaseAbort],
      .error "rebase conflict")
  else
    ([GitOp.checkout branchName, GitOp.rebase baseBranch], .ok ())

/-- PushBranch pushes a branch to origin with force-with-lease. -/
def PushBranch (env : GitEnv) (branchName : String) : List GitOp × Bool :=
  ([GitOp.push "origin" branchName], env.pushOk "origin" branchName)

/-- DeleteLocalBranch deletes a local branch. -/
def DeleteLocalBranch (env : GitEnv) (branchName : String) :
    List GitOp × Except String Unit :=
  ([GitOp.deleteLocal branchName], env.deleteLocalRes branchName)

/-- DeleteRemoteBranch deletes the corresponding remote branch. -/
def DeleteRemoteBranch (env : GitEnv) (branchName : String) :
    List GitOp × Except String Unit :=
  ([GitOp.deleteRemote branchName], env.deleteRemoteRes branchName)

/-- StashChanges stashes the working tree. -/
def StashChanges (env : GitEnv) : List GitOp × Except String Unit :=
  ([GitOp.stashSave], env.stashRes)

/-- HasUncommittedChanges queries git status. -/
def HasUncommittedChanges (env : GitEnv) : List GitOp × Bool :=
  ([GitOp.statusQuery], env.hasUncommitted)

/-- Session states of the interactive model. -/
inductive ModelState where
  | stateLoading
  | stateBrowsing
  | stateConfirming
  | stateUpdating
  | stateDone
  | stateError
  | stateTagging
  | stateHelp
  | stateConfirmingDelete
  | stateDeleting
  | stateConfirmingStash
deriving Repr, DecidableEq

open ModelState

/-- Application state, from the Model struct.  The loading-dots animation
field is display-only and omitted. -/
structure Model where
  state : ModelState := stateLoading
  config : Config := {}
  branches : List Branch := []
  cursor : Nat := 0
  message : String := ""
  error : String := ""
  currentBranch : String := ""
  originalBranch : String := ""
  updateIndex : Nat := 0
  successCount : Nat := 0
  failedBranches : List String := []
  tagInput : String := ""
  commandLog : List String := []
  searchMode : Bool := false
  searchQuery : String := ""
  deleteMode : Bool := false
  selectedForActionCount : Nat := 0
  didStash : Bool := false
deriving Repr, DecidableEq

/-- Messages consumed by the update loop (the tick animation message is
display-only and omitted). -/
inductive Msg where
  | key (k : String)
  | loaded (branches : List Branch) (config : Config) (current : String)
  | errMsg (e : String)
  | branchUpdated (branch : String) (success : Bool) (error : String)
  | branchDeleted (branch : String) (success : Bool) (error : String)
deriving Repr, DecidableEq

/-- Commands returned to the runtime.  updateNext and deleteNext stand for
the closures m.updateNextBranch() and m.deleteNextBranch() over the
returned model. -/
inductive Cmd where
  | none
  | quit
  | updateNext
  | deleteNext
deriving Repr, DecidableEq

/-- Predicate a branch must satisfy to appear in the filtered view. -/
def branchMatches (query : String) (b : Branch) : Bool :=
  strContains (strToLower b.name) (strToLower query) ||
    strContains (strToLower b.description) (strToLower query)

/-- Filter predicate including the empty-query case. -/
def filterPred (query : String) (b : Branch) : Bool :=
  if query = "" then true else branchMatches query b

/-- getFilteredBranches returns branches that match the search query. -/
def Model.getFilteredBranches (m : Model) : List Branch :=
  if m.searchQuery = "" then m.branches
  else m.branches.filter (branchMatches m.searchQuery)

/-- Number of selected branches. -/
def countSelected (bs : List Branch) : Nat :=
  (bs.filter (fun b => b.selected)).length

/-- Clear the selected flag on every branch. -/
def deselectAll (bs : List Branch) : List Branch :=
  bs.map (fun b => { b with selected := false })

/-- Apply f to the k-th element satisfying p; models a mutation through a
pointer obtained from the filtered view. -/
def setNthMatching (p : Branch → Bool) (f : Branch → Branch) (k : Nat) :
    List Branch → List Branch
  | [] => []
  | b :: rest =>
    if p b then
      if k = 0 then f b :: rest
      else b :: setNthMatching p f (k - 1) rest
    else b :: setNthMatching p f k rest

/-- Set the status of the first branch with the given name (the source
breaks out of its loop after the first match). -/
def markFirst (name status : String) : List Branch → List Branch
  | [] => []
  | b :: rest =>
    if b.name = name then { b with status := status } :: rest
    else b :: markFirst name status rest

/-- The k-th selected branch, in list order; models the search loop at the
top of updateNextBranch and deleteNextBranch. -/
def nthSelected : List Branch → Nat → Option Branch
  | [], _ => .none
  | b :: rest, k =>
    if b.selected then
      if k = 0 then .some b else nthSelected rest (k - 1)
    else nthSelected rest k

/-- The predicted-command log populated before an update run; the source
repeats this block verbatim in three handlers. -/
def updateCommandLog (config : Config) (branches : List Branch) : List String :=
  ["git fetch " ++ config.upstreamRemote ++ " " ++ config.baseBranch,
   "git checkout " ++ config.baseBranch,
   "git reset --hard " ++ config.upstreamRemote ++ "/" ++ config.baseBranch,
   "git push origin " ++ config.baseBranch ++ " --force-with-lease"] ++
  (branches.filter (fun b => b.selected)).flatMap (fun b =>
    ["git checkout " ++ b.name,
     "git rebase " ++ config.baseBranch,
     "git push origin " ++ b.name ++ " --force-with-lease"])

/-- The predicted-command log populated before a delete run. -/
def deleteCommandLog (branches : List Branch) : List String :=
  (branches.filter (fun b => b.selected)).flatMap (fun b =>
    ["git branch -d " ++ b.name,
     "git push origin --delete " ++ b.name])

/-- handleSearchKeys: text input for the search query. -/
def Model.handleSearchKeys (m : Model) (k : String) :
    Model × Cmd × List GitOp :=
  match k with
  | "enter" | "esc" => ({ m with searchMode := false }, .none, [])
  | "backspace" =>
    if m.searchQuery.length > 0 then
      ({ m with searchQuery := m.searchQuery.dropRight 1, cursor := 0 }, .none, [])
    else (m, .none, [])
  | "ctrl+c" => (m, .quit, [])
  | _ =>
    if k.length = 1 then
      ({ m with searchQuery := m.searchQuery ++ k, cursor := 0 }, .none, [])
    else (m, .none, [])

/-- handleBrowsingKeys: navigation, selection, mode toggles, and the start
of a workflow. -/
def Model.handleBrowsingKeys (m : Model) (env : GitEnv) (manualMode : Bool)
    (k : String) : Model × Cmd × List GitOp :=
  if m.searchMode then m.handleSearchKeys k
  else
    match k with
    | "ctrl+c" | "q" => (m, .quit, [])
    | "up" | "k" =>
      let filtered := m.getFilteredBranches
      let cursor1 := if m.cursor > 0 then m.cursor - 1 else m.cursor
      let cursor2 :=
        if filtered.length ≤ cursor1 ∧ 0 < filtered.length then
          filtered.length - 1
        else cursor1
      ({ m with cursor := cursor2 }, .none, [])
    | "down" | "j" =>
      let filtered := m.getFilteredBranches
      if m.cursor < filtered.length - 1 then
        ({ m with cursor := m.cursor + 1 }, .none, [])
      else (m, .none, [])
    | " " =>
      let filtered := m.getFilteredBranches
      let toggled :=
        setNthMatching (filterPred m.searchQuery)
          (fun b => { b with selected := !b.selected }) m.cursor m.branches
      if m.cursor < filtered.length then
        ({ m with branches := toggled }, .none, [])
      else (m, .none, [])
    | "a" =>
      let selectedAll :=
        m.branches.map (fun b =>
          if filterPred m.searchQuery b then { b with selected := true } else b)
      ({ m with branches := selectedAll }, .none, [])
    | "n" =>
      let selectedNone :=
        m.branches.map (fun b =>
          if filterPred m.searchQuery b then { b with selected := false } else b)
      ({ m with branches := selectedNone }, .none, [])
    | "d" =>
      if m.deleteMode = false then
        ({ m with
            deleteMode := true
            message := "DELETE MODE: Select branches and press \x27d\x27 to confirm deletion." },
          .none, [])
      else
        let selectedCount := countSelected m.branches
        if selectedCount > 0 then
          ({ m with
              state := stateConfirmingDelete
              message := "Ready to delete " ++ toString selectedCount ++ " branch(es)." },
            .none, [])
        else
          ({ m with message := "No branches selected for deletion." }, .none, [])
    | "h" => ({ m with state := stateHelp }, .none, [])
    | "t" =>
      let filtered := m.getFilteredBranches
      if m.cursor < filtered.length then
        ({ m with
            state := stateTagging
            tagInput := (filtered.getD m.cursor default).description },
          .none, [])
      else (m, .none, [])
    | "/" =>
      ({ m with searchMode := true, searchQuery := "", cursor := 0 }, .none, [])
    | "esc" =>
      if m.searchQuery ≠ "" then
        ({ m with searchQuery := "", cursor := 0 }, .none, [])
      else if m.deleteMode then
        ({ m with
            deleteMode := false
            message := ""
            branches := deselectAll m.branches },
          .none, [])
      else (m, .none, [])
    | "enter" =>
      if m.deleteMode then (m, .none, [])
      else
        let (tStatus, dirty) := HasUncommittedChanges env
        if dirty then
          ({ m with
              state := stateConfirmingStash
              message := "You have uncommitted changes. Stash them and proceed? (y/n)" },
            .none, tStatus)
        else
          let selectedCount := countSelected m.branches
          if selectedCount = 0 then
            ({ m with message := "No branches selected" }, .none, tStatus)
          else
            let m1 := { m with commandLog := updateCommandLog m.config m.branches }
            if manualMode then
              ({ m1 with
                  state := stateConfirming
                  message := "Ready to update " ++ toString selectedCount ++
                    " branch(es). Press \x27y\x27 to continue, \x27n\x27 to cancel." },
                .none, tStatus)
            else
              ({ m1 with
                  state := stateUpdating
                  updateIndex := 0
                  successCount := 0
                  failedBranches := []
                  selectedForActionCount := selectedCount },
                .updateNext, tStatus)
    | _ => (m, .none, [])

/-- handleConfirmingKeys: explicit confirmation before an update run. -/
def Model.handleConfirmingKeys (m : Model) (k : String) :
    Model × Cmd × List GitOp :=
  match k with
  | "y" | "Y" =>
    ({ m with
        state := stateUpdating
        updateIndex := 0
        successCount := 0
        failedBranches := []
        selectedForActionCount := countSelected m.branches
        commandLog := updateCommandLog m.config m.branches },
      .updateNext, [])
  | "n" | "N" | "q" | "ctrl+c" =>
    ({ m with state := stateBrowsing, message := "Update cancelled" }, .none, [])
  | _ => (m, .none, [])

/-- handleConfirmingDeleteKeys: explicit confirmation before a delete run. -/
def Model.handleConfirmingDeleteKeys (m : Model) (k : String) :
    Model × Cmd × List GitOp :=
  match k with
  | "y" | "Y" =>
    ({ m with
        state := stateDeleting
        updateIndex := 0
        successCount := 0
        failedBranches := []
        selectedForActionCount := countSelected m.branches
        commandLog := deleteCommandLog m.branches },
      .deleteNext, [])
  | "n" | "N" | "q" | "ctrl+c" | "esc" =>
    ({ m with
        state := stateBrowsing
        deleteMode := false
        message := "Deletion cancelled"
        branches := deselectAll m.branches },
      .none, [])
  | _ => (m, .none, [])

/-- handleConfirmingStashKeys: stash prompt before a destructive run. -/
def Model.handleConfirmingStashKeys (m : Model) (env : GitEnv)
    (manualMode : Bool) (k : String) : Model × Cmd × List GitOp :=
  match k with
  | "y" | "Y" =>
    let (tStash, r) := StashChanges env
    match r with
    | .error e => ({ m with state := stateError, error := e }, .none, tStash)
    | .ok _ =>
      let m1 :=
        { m with
            didStash := true
            commandLog := updateCommandLog m.config m.branches }
      let selectedCount := countSelected m.branches
      if selectedCount = 0 then
        ({ m1 with message := "No branches selected", state := stateBrowsing },
          .none, tStash)
      else if manualMode then
        ({ m1 with
            state := stateConfirming
            message := "Ready to update " ++ toString selectedCount ++
              " branch(es). Press \x27y\x27 to continue, \x27n\x27 to cancel." },
          .none, tStash)
      else
        ({ m1 with
            state := stateUpdating
            updateIndex := 0
            successCount := 0
            failedBranches := []
            selectedForActionCount := selectedCount },
          .updateNext, tStash)
  | "n" | "N" | "q" | "ctrl+c" | "esc" =>
    ({ m with state := stateBrowsing, message := "Update cancelled." }, .none, [])
  | _ => (m, .none, [])

/-- handleTaggingKeys: free-text edit of one branch description; enter
persists against the branch at the cursor in the unfiltered list. -/
def Model.handleTaggingKeys (m : Model) (k : String) :
    Model × Cmd × List GitOp :=
  match k with
  | "enter" =>
    if m.cursor < m.branches.length then
      let branch := m.branches.getD m.cursor default
      if m.tagInput ≠ "" then
        let branches1 := m.branches.set m.cursor { branch with description := m.tagInput }
        ({ m with branches := branches1, state := stateBrowsing, tagInput := "" },
          .none, [GitOp.setTag branch.name m.tagInput])
      else
        let branches1 := m.branches.set m.cursor { branch with description := "" }
        ({ m with branches := branches1, state := stateBrowsing, tagInput := "" },
          .none, [GitOp.unsetTag branch.name])
    else
      ({ m with state := stateBrowsing, tagInput := "" }, .none, [])
  | "esc" | "ctrl+c" =>
    ({ m with state := stateBrowsing, tagInput := "" }, .none, [])
  | "backspace" =>
    if m.tagInput.length > 0 then
      ({ m with tagInput := m.tagInput.dropRight 1 }, .none, [])
    else (m, .none, [])
  | _ =>
    if k.length = 1 then
      ({ m with tagInput := m.tagInput ++ k }, .none, [])
    else (m, .none, [])

/-- handleHelpKeys: leave the help screen. -/
def Model.handleHelpKeys (m : Model) (k : String) : Model × Cmd × List GitOp :=
  match k with
  | "h" | "q" | "esc" => ({ m with state := stateBrowsing }, .none, [])
  | _ => (m, .none, [])

/-- handleKeyPress dispatches a key according to the session state. -/
def Model.handleKeyPress (m : Model) (env : GitEnv) (manualMode : Bool)
    (k : String) : Model × Cmd × List GitOp :=
  match m.state with
  | stateBrowsing => m.handleBrowsingKeys env manualMode k
  | stateConfirming => m.handleConfirmingKeys k
  | stateConfirmingDelete => m.handleConfirmingDeleteKeys k
  | stateConfirmingStash => m.handleConfirmingStashKeys env manualMode k
  | stateDone | stateError =>
    if k = " " ∨ k = "enter" then
      ({ m with
          state := stateBrowsing
          message := ""
          successCount := 0
          failedBranches := []
          updateIndex := 0
          selectedForActionCount := 0
          commandLog := []
          didStash := false
          deleteMode := false
          branches := deselectAll m.branches },
        .none, [])
    else if k = "q" ∨ k = "ctrl+c" then
      ({ m with deleteMode := false }, .quit,
        if m.didStash then [GitOp.stashPop] else [])
    else (m, .none, [])
  | stateTagging => m.handleTaggingKeys k
  | stateHelp => m.handleHelpKeys k
  | _ => (m, .none, [])

/-- Update consumes one message and returns the next model, the command to
run, and the git operations performed synchronously by the handler. -/
def Model.Update (m : Model) (env : GitEnv) (manualMode : Bool) (msg : Msg) :
    Model × Cmd × List GitOp :=
  match msg with
  | .key k => m.handleKeyPress env manualMode k
  | .loaded bs cfg cur =>
    ({ m with
        branches := bs
        config := cfg
        currentBranch := cur
        originalBranch := cur
        state := stateBrowsing
        message := "" },
      .none, [])
  | .errMsg e =>
    if m.didStash then
      ({ m with state := stateError, error := e, didStash := false },
        .none, [GitOp.stashPop])
    else
      ({ m with state := stateError, error := e }, .none, [])
  | .branchUpdated b succ e =>
    let m1 :=
      if succ then
        { m with
            successCount := m.successCount + 1
            branches := markFirst b "updated" m.branches }
      else
        { m with failedBranches := m.failedBranches ++ [b ++ " (" ++ e ++ ")"] }
    let m2 := { m1 with updateIndex := m1.updateIndex + 1 }
    if m2.selectedForActionCount ≤ m2.updateIndex then
      if m2.didStash then
        ({ m2 with state := stateDone, didStash := false },
          .none, [GitOp.stashPop])
      else ({ m2 with state := stateDone }, .none, [])
    else (m2, .updateNext, [])
  | .branchDeleted b succ e =>
    let m1 :=
      if succ then
        { m with
            successCount := m.successCount + 1
            branches := markFirst b "deleted" m.branches }
      else
        { m with failedBranches := m.failedBranches ++ [b ++ " (" ++ e ++ ")"] }
    let m2 := { m1 with updateIndex := m1.updateIndex + 1 }
    if m2.selectedForActionCount ≤ m2.updateIndex then
      if m2.didStash then
        ({ m2 with state := stateDone, didStash := false },
          .none, [GitOp.stashPop])
      else ({ m2 with state := stateDone }, .none, [])
    else (m2, .deleteNext, [])

/-- updateNextBranch: the command processing one queue position of an
update run; on position 0 it first runs the fetch and base-branch guard. -/
def Model.updateNextBranch (m : Model) (env : GitEnv) : List GitOp × Msg :=
  match nthSelected m.branches m.updateIndex with
  | .none => ([], .branchUpdated "" false "branch not found")
  | .some targetBranch =>
    let step0 : List GitOp × Option Msg :=
      if m.updateIndex = 0 then
        let (tf, okf) := FetchUpstream env m.config.upstreamRemote m.config.baseBranch
        if okf = false then
          (tf, .some (.branchUpdated targetBranch.name false "fetch failed"))
        else
          let (tu, ru) := UpdateBaseBranch env m.config.baseBranch m.config.upstreamRemote
          match ru with
          | .error e => (tf ++ tu, .some (.branchUpdated targetBranch.name false e))
          | .ok _ => (tf ++ tu, .none)
      else ([], .none)
    match step0 with
    | (t, .some msg) => (t, msg)
    | (t, .none) =>
      let (tr, rr) := RebaseBranch env targetBranch.name m.config.baseBranch
      match rr with
      | .error e => (t ++ tr, .branchUpdated targetBranch.name false e)
      | .ok _ =>
        let (tp, okp) := PushBranch env targetBranch.name
        if okp = false then
          (t ++ tr ++ tp, .branchUpdated targetBranch.name false "push failed")
        else
          (t ++ tr ++ tp, .branchUpdated targetBranch.name true "")

/-- deleteNextBranch: the command processing one queue position of a delete
run; the remote delete runs only after the local delete succeeds. -/
def Model.deleteNextBranch (m : Model) (env : GitEnv) : List GitOp × Msg :=
  match nthSelected m.branches m.updateIndex with
  | .none => ([], .branchDeleted "" false "branch not found")
  | .some targetBranch =>
    let (tl, rl) := DeleteLocalBranch env targetBranch.name
    match rl with
    | .error e => (tl, .branchDeleted targetBranch.name false e)
    | .ok _ =>
      let (tr, rr) := DeleteRemoteBranch env targetBranch.name
      match rr with
      | .error e => (tl ++ tr, .branchDeleted targetBranch.name false e)
      | .ok _ => (tl ++ tr, .branchDeleted targetBranch.name true "")

/-- Execute a command against the environment, producing its trace and the
message it feeds back, if any. -/
def runCmd (env : GitEnv) (m : Model) : Cmd → List GitOp × Option Msg
  | .none => ([], .none)
  | .quit => ([], .none)
  | .updateNext =>
    let (t, msg) := m.updateNextBranch env
    (t, .some msg)
  | .deleteNext =>
    let (t, msg) := m.deleteNextBranch env
    (t, .some msg)

/-! ## Concrete environments and models used by witnesses -/

/-- A benign environment in which every git command succeeds. -/
def envOk : GitEnv where
  localBranchesRes := .ok ["main", "feature-a", "feature-b", "release/1.0"]
  branchTag := fun _ => ""
  logLastCommit := fun _ => .ok "2 days ago"
  revListCounts := fun _ _ => .ok "2 1"
  revListOnly := fun _ _ => .ok ""
  fetchOk := fun _ _ => true
  checkoutOk := fun _ => true
  resetOk := fun _ => true
  pushOk := fun _ _ => true
  rebaseOk := fun _ _ => true
  deleteLocalRes := fun _ => .ok ()
  deleteRemoteRes := fun _ => .ok ()
  stashRes := .ok ()
  hasUncommitted := false

/-- Like envOk but the local base branch has a local-only commit, so the
divergence query reports a non-empty commit list. -/
def envDiverged : GitEnv :=
  { envOk with revListOnly := fun _ _ => .ok "deadbeefcafe" }

/-- Like envOk but the working tree has uncommitted changes. -/
def envDirty : GitEnv :=
  { envOk with hasUncommitted := true }

/-- A configuration with base main and remote upstream. -/
def cfgMain : Config :=
  { baseBranch := "main", upstreamRemote := "upstream", originRemote := "origin",
    excludePatterns := [] }

/-! ## Substring helper lemmas -/

theorem strContains_append_of_middle (a b c needle : String)
    (h : strContains b needle = true) :
    strContains (a ++ b ++ c) needle = true := by
  simp only [strContains, decide_eq_true_eq] at h ⊢
  have he : (a ++ b ++ c).toList = a.toList ++ b.toList ++ c.toList := rfl
  rw [he]
  exact h.trans (List.infix_append _ _ _)

theorem strContains_append_right (a b needle : String)
    (h : strContains b needle = true) :
    strContains (a ++ b) needle = true := by
  simp only [strContains, decide_eq_true_eq] at h ⊢
  have he : (a ++ b).toList = a.toList ++ b.toList := rfl
  rw [he]
  exact h.trans (List.suffix_append _ _).isInfix

theorem divergedMsg_contains (baseBranch upstreamRef : String) :
    strContains (divergedMsg baseBranch upstreamRef) "has diverged" = true := by
  have he : divergedMsg baseBranch upstreamRef =
      ("local base branch \x27" ++ baseBranch) ++ "\x27 has diverged from \x27" ++
        (upstreamRef ++ "\x27. Please resolve manually") := by
    simp [divergedMsg, String.append_assoc]
  rw [he]
  exact strContains_append_of_middle _ _ _ _ (by decide)

/-! ## Branch collector lemmas -/

theorem GetBranchInfo_ok (env : GitEnv) (n base : String) :
    ∃ br, GetBranchInfo env n base = Except.ok br ∧ br.name = n := by
  unfold GetBranchInfo GetBranchTag
  repeat' split
  all_goals simp
  all_goals split <;> rfl

/-- Names kept by the collector are exactly the enumerated names that are
not the base branch and contain no exclude pattern. -/
theorem collectBranches_map_name (env : GitEnv) (base : String)
    (pats : List String) (names : List String) :
    (collectBranches env base pats names).map Branch.name =
      names.filter (fun s => !(s == base) && !(pats.any (fun p => strContains s p))) := by
  induction names with
  | nil => rfl
  | cons name rest ih =>
    unfold collectBranches
    by_cases h1 : name = base
    · simp [h1, ih]
    · by_cases h2 : pats.any (fun p => strContains name p) = true
      · simp [h1, h2, ih]
      · obtain ⟨br, hbr, hname⟩ := GetBranchInfo_ok env name base
        simp [h1, h2, hbr, hname, ih]

/-! ## C5 -/

/-- C5: for every base branch, exclude-pattern list and enumerated set of
local branches, the collected list never contains the base branch and
never contains a branch whose name contains an exclude pattern as a
substring. -/
theorem claim_C5 (env : GitEnv) (base : String) (pats : List String)
    (bs : List Branch)
    (h : GetBranchesWithInfo env base pats = Except.ok bs)
    (b : Branch) (hb : b ∈ bs) (p : String) (hp : p ∈ pats) :
    b.name ≠ base ∧ strContains b.name p = false := by
  have hname : b.name ∈ bs.map Branch.name := List.mem_map_of_mem _ hb
  unfold GetBranchesWithInfo at h
  cases hE : env.localBranchesRes with
  | error e => rw [hE] at h; exact absurd h (by simp)
  | ok names =>
    rw [hE] at h
    injection h with h
    subst h
    rw [collectBranches_map_name] at hname
    have hpred := (List.mem_filter.mp hname).2
    simp only [Bool.and_eq_true, Bool.not_eq_true', beq_eq_false_iff_ne] at hpred
    refine ⟨hpred.1, ?_⟩
    have hany := hpred.2
    rw [List.any_eq_false] at hany
    simpa using hany p hp

theorem claim_C5_witness :
    (Branch.mk "feature-a" "" 2 1 "2 days ago" false "behind").name ≠ "main" ∧
      strContains (Branch.mk "feature-a" "" 2 1 "2 days ago" false "behind").name
        "release/" = false :=
  claim_C5 envOk "main" ["release/"] _ rfl
    (Branch.mk "feature-a" "" 2 1 "2 days ago" false "behind") (by decide)
    "release/" (by decide)

/-! ## C8 -/

/-- C8: GetBranchInfo returns a non-error result on every input, so the
best-effort skip branch of GetBranchesWithInfo is unreachable: the
collected list is exactly the enumerated local branches minus the base
branch and the excluded names. -/
theorem claim_C8 (env : GitEnv) (n base : String) (pats names : List String)
    (h : env.localBranchesRes = Except.ok names) :
    (GetBranchInfo env n base).isOk = true ∧
    GetBranchesWithInfo env base pats =
      Except.ok (collectBranches env base pats names) ∧
    (collectBranches env base pats names).map Branch.name =
      names.filter (fun s => !(s == base) && !(pats.any (fun p => strContains s p))) := by
  refine ⟨?_, ?_, collectBranches_map_name env base pats names⟩
  · obtain ⟨br, hbr, _⟩ := GetBranchInfo_ok env n base
    rw [hbr]; rfl
  · unfold GetBranchesWithInfo
    rw [h]

theorem claim_C8_witness :
    (GetBranchInfo envOk "feature-x" "main").isOk = true ∧
    GetBranchesWithInfo envOk "main" ["release/"] =
      Except.ok (collectBranches envOk "main" ["release/"]
        ["main", "feature-a", "feature-b", "release/1.0"]) ∧
    (collectBranches envOk "main" ["release/"]
        ["main", "feature-a", "feature-b", "release/1.0"]).map Branch.name =
      (["main", "feature-a", "feature-b", "release/1.0"]).filter
        (fun s => !(s == "main") && !((["release/"]).any (fun p => strContains s p))) :=
  claim_C8 envOk "feature-x" "main" ["release/"]
    ["main", "feature-a", "feature-b", "release/1.0"] rfl

/-! ## C2 -/

/-- C2: if the local base branch has commits not reachable from the
upstream ref (the divergence query returns a non-empty commit list),
UpdateBaseBranch fails with an error containing the words has diverged and
invokes no checkout, no hard reset and no push: its trace is exactly the
divergence query. -/
theorem claim_C2 (env : GitEnv) (base remote out : String)
    (h1 : env.revListOnly base remote = Except.ok out)
    (h2 : strTrim out ≠ "") :
    (UpdateBaseBranch env base remote).2 =
      Except.error (divergedMsg base (remote ++ "/" ++ base)) ∧
    strContains (divergedMsg base (remote ++ "/" ++ base)) "has diverged" = true ∧
    (UpdateBaseBranch env base remote).1 =
      [GitOp.revListAhead base (remote ++ "/" ++ base)] ∧
    (∀ b, GitOp.checkout b ∉ (UpdateBaseBranch env base remote).1) ∧
    (∀ r, GitOp.resetHard r ∉ (UpdateBaseBranch env base remote).1) ∧
    (∀ r b, GitOp.push r b ∉ (UpdateBaseBranch env base remote).1) := by
  have hu : UpdateBaseBranch env base remote =
      ([GitOp.revListAhead base (remote ++ "/" ++ base)],
        Except.error (divergedMsg base (remote ++ "/" ++ base))) := by
    unfold UpdateBaseBranch
    rw [h1]
    simp [h2]
  refine ⟨by rw [hu], divergedMsg_contains base (remote ++ "/" ++ base), by rw [hu],
    ?_, ?_, ?_⟩ <;> intros <;> rw [hu] <;> simp

theorem claim_C2_witness :
    (UpdateBaseBranch envDiverged "main" "upstream").2 =
      Except.error (divergedMsg "main" ("upstream" ++ "/" ++ "main")) ∧
    strContains (divergedMsg "main" ("upstream" ++ "/" ++ "main")) "has diverged" = true ∧
    (UpdateBaseBranch envDiverged "main" "upstream").1 =
      [GitOp.revListAhead "main" ("upstream" ++ "/" ++ "main")] :=
  have h := claim_C2 envDiverged "main" "upstream" "deadbeefcafe" rfl (by decide)
  ⟨h.1, h.2.1, h.2.2.1⟩

/-! ## C4 -/

/-- Like envOk but every rebase hits a conflict. -/
def envConflict : GitEnv :=
  { envOk with rebaseOk := fun _ _ => false }

/-- A model in the middle of an update run: position 1 of a three-branch
queue. -/
def mRun : Model :=
  { state := ModelState.stateUpdating
    config := cfgMain
    branches :=
      [{ name := "feature-a", selected := true, status := "updated" },
       { name := "feature-b", selected := true },
       { name := "feature-c", selected := true }]
    updateIndex := 1
    successCount := 1
    selectedForActionCount := 3 }

/-- C4: a rebase conflict at a queue position after the first aborts the
rebase (the trace is checkout, rebase, abort — the abort restores the
pre-rebase state), reports the reason rebase conflict, and the driver
records exactly one failure entry containing the word conflict and
continues with the next queue item. -/
theorem claim_C4 (env : GitEnv) (manualMode : Bool) (m : Model)
    (bname base b : String)
    (hco : env.checkoutOk bname = true)
    (hrb : env.rebaseOk bname base = false)
    (_hk : 1 ≤ m.updateIndex)
    (hcont : m.updateIndex + 1 < m.selectedForActionCount) :
    RebaseBranch env bname base =
      ([GitOp.checkout bname, GitOp.rebase base, GitOp.rebaseAbort],
        Except.error "rebase conflict") ∧
    strContains "rebase conflict" "conflict" = true ∧
    m.Update env manualMode (Msg.branchUpdated b false "rebase conflict") =
      ({ m with
          failedBranches := m.failedBranches ++ [b ++ " (" ++ "rebase conflict" ++ ")"]
          updateIndex := m.updateIndex + 1 },
        Cmd.updateNext, []) ∧
    strContains (b ++ " (" ++ "rebase conflict" ++ ")") "conflict" = true := by
  refine ⟨?_, by decide, ?_,
    strContains_append_of_middle (b ++ " (") "rebase conflict" ")" "conflict" (by decide)⟩
  · unfold RebaseBranch
    simp [hco, hrb]
  · have hlt : ¬ (m.selectedForActionCount ≤ m.updateIndex + 1) := by omega
    simp [Model.Update, hlt]

theorem claim_C4_witness :
    RebaseBranch envConflict "feature-b" "main" =
      ([GitOp.checkout "feature-b", GitOp.rebase "main", GitOp.rebaseAbort],
        Except.error "rebase conflict") ∧
    strContains "rebase conflict" "conflict" = true ∧
    mRun.Update envConflict false (Msg.branchUpdated "feature-b" false "rebase conflict") =
      ({ mRun with
          failedBranches :=
            mRun.failedBranches ++ ["feature-b" ++ " (" ++ "rebase conflict" ++ ")"]
          updateIndex := mRun.updateIndex + 1 },
        Cmd.updateNext, []) ∧
    strContains ("feature-b" ++ " (" ++ "rebase conflict" ++ ")") "conflict" = true :=
  claim_C4 envConflict false mRun "feature-b" "main" "feature-b"
    rfl rfl (by decide) (by decide)

/-! ## C10 -/

/-- Like envOk but every local branch delete is refused. -/
def envDelFail : GitEnv :=
  { envOk with deleteLocalRes := fun _ => .error "branch is not fully merged" }

/-- C10: in delete mode, when the local delete of the current queue item
fails, the remote delete is not attempted for that branch, exactly one
failure entry of the form name space reason is recorded, and the driver
continues with the next queue item; the remote delete runs only after a
successful local delete. -/
theorem claim_C10 (env : GitEnv) (manualMode : Bool) (m : Model)
    (tb : Branch) (e : String)
    (hsel : nthSelected m.branches m.updateIndex = .some tb)
    (hdel : env.deleteLocalRes tb.name = Except.error e)
    (hcont : m.updateIndex + 1 < m.selectedForActionCount) :
    m.deleteNextBranch env =
      ([GitOp.deleteLocal tb.name], Msg.branchDeleted tb.name false e) ∧
    GitOp.deleteRemote tb.name ∉ (m.deleteNextBranch env).1 ∧
    m.Update env manualMode (Msg.branchDeleted tb.name false e) =
      ({ m with
          failedBranches := m.failedBranches ++ [tb.name ++ " (" ++ e ++ ")"]
          updateIndex := m.updateIndex + 1 },
        Cmd.deleteNext, []) ∧
    (∀ env2 : GitEnv, env2.deleteLocalRes tb.name = Except.ok () →
      (m.deleteNextBranch env2).1 =
        [GitOp.deleteLocal tb.name, GitOp.deleteRemote tb.name]) := by
  have hd : m.deleteNextBranch env =
      ([GitOp.deleteLocal tb.name], Msg.branchDeleted tb.name false e) := by
    unfold Model.deleteNextBranch
    rw [hsel]
    simp [DeleteLocalBranch, hdel]
  refine ⟨hd, by rw [hd]; simp, ?_, ?_⟩
  · have hlt : ¬ (m.selectedForActionCount ≤ m.updateIndex + 1) := by omega
    simp [Model.Update, hlt]
  · intro env2 h2
    unfold Model.deleteNextBranch
    rw [hsel]
    cases henv : env2.deleteRemoteRes tb.name <;>
      simp [DeleteLocalBranch, DeleteRemoteBranch, h2, henv]

theorem claim_C10_witness :
    mRun.deleteNextBranch envDelFail =
      ([GitOp.deleteLocal "feature-b"],
        Msg.branchDeleted "feature-b" false "branch is not fully merged") ∧
    GitOp.deleteRemote "feature-b" ∉ (mRun.deleteNextBranch envDelFail).1 ∧
    mRun.Update envDelFail false
        (Msg.branchDeleted "feature-b" false "branch is not fully merged") =
      ({ mRun with
          failedBranches := mRun.failedBranches ++
            ["feature-b" ++ " (" ++ "branch is not fully merged" ++ ")"]
          updateIndex := mRun.updateIndex + 1 },
        Cmd.deleteNext, []) ∧
    (mRun.deleteNextBranch envOk).1 =
      [GitOp.deleteLocal "feature-b", GitOp.deleteRemote "feature-b"] :=
  have h := claim_C10 envDelFail false mRun { name := "feature-b", selected := true }
    "branch is not fully merged" rfl rfl (by decide)
  ⟨h.1, h.2.1, h.2.2.1, h.2.2.2 envOk rfl⟩

/-! ## C7 -/

/-- C7: with uncommitted changes present, enter moves to the stash prompt
having run only the status query, and declining the prompt returns to
Browsing with branches, configuration, cursor and selection unchanged;
neither step invokes a fetch, checkout, reset, push, rebase or stash. -/
theorem claim_C7 (env : GitEnv) (manualMode : Bool) (m : Model)
    (hstate : m.state = ModelState.stateBrowsing)
    (hsearch : m.searchMode = false)
    (hdel : m.deleteMode = false)
    (henv : env.hasUncommitted = true) :
    m.Update env manualMode (Msg.key "enter") =
      ({ m with
          state := ModelState.stateConfirmingStash
          message := "You have uncommitted changes. Stash them and proceed? (y/n)" },
        Cmd.none, [GitOp.statusQuery]) ∧
    Model.Update
      { m with
          state := ModelState.stateConfirmingStash
          message := "You have uncommitted changes. Stash them and proceed? (y/n)" }
      env manualMode (Msg.key "n") =
      ({ m with
          state := ModelState.stateBrowsing
          message := "Update cancelled." },
        Cmd.none, []) ∧
    (∀ r b2, GitOp.fetch r b2 ∉ [GitOp.statusQuery]) ∧
    (∀ b2, GitOp.checkout b2 ∉ [GitOp.statusQuery]) ∧
    (∀ r2, GitOp.resetHard r2 ∉ [GitOp.statusQuery]) ∧
    (∀ r b2, GitOp.push r b2 ∉ [GitOp.statusQuery]) ∧
    GitOp.stashSave ∉ [GitOp.statusQuery] := by
  refine ⟨?_, ?_, ?_, ?_, ?_, ?_, ?_⟩
  · simp [Model.Update, Model.handleKeyPress, Model.handleBrowsingKeys,
      HasUncommittedChanges, hstate, hsearch, hdel, henv]
  · simp [Model.Update, Model.handleKeyPress, Model.handleConfirmingStashKeys]
  all_goals (intros; simp)

/-- A browsing-state model with one selected branch. -/
def mBrowse : Model :=
  { state := ModelState.stateBrowsing
    config := cfgMain
    branches := [{ name := "feature-a", selected := true }] }

theorem claim_C7_witness :
    mBrowse.Update envDirty false (Msg.key "enter") =
      ({ mBrowse with
          state := ModelState.stateConfirmingStash
          message := "You have uncommitted changes. Stash them and proceed? (y/n)" },
        Cmd.none, [GitOp.statusQuery]) ∧
    Model.Update
      { mBrowse with
          state := ModelState.stateConfirmingStash
          message := "You have uncommitted changes. Stash them and proceed? (y/n)" }
      envDirty false (Msg.key "n") =
      ({ mBrowse with
          state := ModelState.stateBrowsing
          message := "Update cancelled." },
        Cmd.none, []) ∧
    GitOp.stashSave ∉ [GitOp.statusQuery] :=
  have h := claim_C7 envDirty false mBrowse rfl rfl rfl rfl
  ⟨h.1, h.2.1, h.2.2.2.2.2.2⟩

/-! ## C9 -/

/-- A browsing model with two branches and an active filter that matches
only the second branch, cursor at the top of the filtered view. -/
def mFiltered : Model :=
  { state := ModelState.stateBrowsing
    config := cfgMain
    branches := [{ name := "alpha" }, { name := "beta" }]
    cursor := 0
    searchQuery := "bet" }

/-- C9: confirming a tag edit persists the description for the branch at
the cursor position of the unfiltered list, while tag editing was entered
for the cursor position of the filtered view; with an empty search query
the two coincide, and with an active filter the saved tag can land on a
different branch than the one displayed during editing. -/
theorem claim_C9 (env : GitEnv) (manualMode : Bool) (m : Model)
    (hstate : m.state = ModelState.stateTagging)
    (hcur : m.cursor < m.branches.length)
    (hinput : m.tagInput ≠ "") :
    m.Update env manualMode (Msg.key "enter") =
      ({ m with
          branches := m.branches.set m.cursor
            { m.branches.getD m.cursor default with description := m.tagInput }
          state := ModelState.stateBrowsing
          tagInput := "" },
        Cmd.none,
        [GitOp.setTag (m.branches.getD m.cursor default).name m.tagInput]) ∧
    (∀ m2 : Model, m2.searchQuery = "" → m2.getFilteredBranches = m2.branches) ∧
    ((mFiltered.getFilteredBranches.getD mFiltered.cursor default).name = "beta" ∧
     (mFiltered.branches.getD mFiltered.cursor default).name = "alpha" ∧
     (((mFiltered.Update envOk false (Msg.key "t")).1.Update envOk false
          (Msg.key "x")).1.Update envOk false (Msg.key "enter")) =
       ({ mFiltered with
           branches := [{ name := "alpha", description := "x" }, { name := "beta" }]
           state := ModelState.stateBrowsing
           tagInput := "" },
         Cmd.none, [GitOp.setTag "alpha" "x"])) := by
  refine ⟨?_, ?_, by decide⟩
  · simp [Model.Update, Model.handleKeyPress, Model.handleTaggingKeys,
      hstate, hcur, hinput]
  · intro m2 h2
    simp [Model.getFilteredBranches, h2]

theorem claim_C9_witness :
    Model.Update
      { mFiltered with state := ModelState.stateTagging, tagInput := "note" }
      envOk false (Msg.key "enter") =
      ({ { mFiltered with state := ModelState.stateTagging, tagInput := "note" } with
          branches :=
            ({ mFiltered with state := ModelState.stateTagging, tagInput := "note" } :
              Model).branches.set 0
              { ({ mFiltered with state := ModelState.stateTagging, tagInput := "note" } :
                  Model).branches.getD 0 default with description := "note" }
          state := ModelState.stateBrowsing
          tagInput := "" },
        Cmd.none,
        [GitOp.setTag
          (({ mFiltered with state := ModelState.stateTagging, tagInput := "note" } :
              Model).branches.getD 0 default).name "note"]) ∧
    (mFiltered.getFilteredBranches.getD mFiltered.cursor default).name = "beta" ∧
    (mFiltered.branches.getD mFiltered.cursor default).name = "alpha" :=
  have h := claim_C9 envOk false
    { mFiltered with state := ModelState.stateTagging, tagInput := "note" }
    rfl (by decide) (by decide)
  ⟨h.1, h.2.2.1, h.2.2.2.1⟩

/-! ## C6 -/

/-- A Done-state model whose single branch is still selected. -/
def mDone : Model :=
  { state := ModelState.stateDone
    config := cfgMain
    branches := [{ name := "feature-a", selected := true }]
    successCount := 1 }

/-- C6 counterexample: in the Done state the key x is neither quit nor
space nor enter, and it does not reset the session: the model is returned
unchanged, still in Done with the selection intact.  This refutes the
claim that every key other than quit resets back to Browsing. -/
theorem claim_C6_counterexample :
    mDone.Update envOk false (Msg.key "x") = (mDone, Cmd.none, []) ∧
    ("x" : String) ≠ "q" ∧ ("x" : String) ≠ "ctrl+c" ∧
    (mDone.Update envOk false (Msg.key "x")).1.state ≠ ModelState.stateBrowsing ∧
    ((mDone.Update envOk false (Msg.key "x")).1.branches.getD 0 default).selected
      = true := by
  decide

/-- C6 amended: in the Done and Error states, space or enter (only) resets
the session to Browsing with selection cleared on all branches, success
count, failure list, update index and action count zeroed, and the
delete-mode and stash-owed flags cleared; q or ctrl+c pops an outstanding
stash and quits; every other key leaves the model unchanged. -/
theorem claim_C6 (env : GitEnv) (manualMode : Bool) (m : Model) (k : String)
    (hstate : m.state = ModelState.stateDone ∨ m.state = ModelState.stateError) :
    ((k = " " ∨ k = "enter") →
      m.Update env manualMode (Msg.key k) =
        ({ m with
            state := ModelState.stateBrowsing
            message := ""
            successCount := 0
            failedBranches := []
            updateIndex := 0
            selectedForActionCount := 0
            commandLog := []
            didStash := false
            deleteMode := false
            branches := deselectAll m.branches },
          Cmd.none, [])) ∧
    ((k = "q" ∨ k = "ctrl+c") →
      m.Update env manualMode (Msg.key k) =
        ({ m with deleteMode := false }, Cmd.quit,
          if m.didStash then [GitOp.stashPop] else [])) ∧
    (k ≠ " " → k ≠ "enter" → k ≠ "q" → k ≠ "ctrl+c" →
      m.Update env manualMode (Msg.key k) = (m, Cmd.none, [])) := by
  refine ⟨?_, ?_, ?_⟩
  · intro hk
    rcases hstate with h | h <;> rcases hk with hk | hk <;>
      subst hk <;> simp [Model.Update, Model.handleKeyPress, h]
  · intro hk
    rcases hstate with h | h <;> rcases hk with hk | hk <;>
      subst hk <;> simp [Model.Update, Model.handleKeyPress, h]
  · intro h1 h2 h3 h4
    rcases hstate with h | h <;>
      simp [Model.Update, Model.handleKeyPress, h, h1, h2, h3, h4]

theorem claim_C6_witness :
    mDone.Update envOk false (Msg.key "enter") =
      ({ mDone with
          state := ModelState.stateBrowsing
          message := ""
          successCount := 0
          failedBranches := []
          updateIndex := 0
          selectedForActionCount := 0
          commandLog := []
          didStash := false
          deleteMode := false
          branches := deselectAll mDone.branches },
        Cmd.none, []) ∧
    mDone.Update envOk false (Msg.key "q") =
      ({ mDone with deleteMode := false }, Cmd.quit,
        if mDone.didStash then [GitOp.stashPop] else []) :=
  ⟨(claim_C6 envOk false mDone "enter" (Or.inl rfl)).1 (Or.inr rfl),
   (claim_C6 envOk false mDone "q" (Or.inl rfl)).2.1 (Or.inl rfl)⟩

/-! ## C3 -/

/-- A browsing model in which no branch is selected. -/
def mNoSel : Model :=
  { state := ModelState.stateBrowsing
    config := cfgMain
    branches := [{ name := "feature-a" }] }

/-- C3 counterexample: with uncommitted changes and no branch selected,
enter opens the stash prompt, accepting it creates a stash and, because
the selected count is zero, the session returns to Browsing still owing
the stash; quitting from Browsing then exits without popping.  The stash
was created once and popped zero times on this exit path, refuting the
pop-exactly-once-on-every-exit-path claim. -/
theorem claim_C3_counterexample :
    GitOp.stashSave ∈
      ((mNoSel.Update envDirty false (Msg.key "enter")).1.Update envDirty false
        (Msg.key "y")).2.2 ∧
    ((mNoSel.Update envDirty false (Msg.key "enter")).1.Update envDirty false
        (Msg.key "y")).1.didStash = true ∧
    ((mNoSel.Update envDirty false (Msg.key "enter")).1.Update envDirty false
        (Msg.key "y")).1.state = ModelState.stateBrowsing ∧
    ((((mNoSel.Update envDirty false (Msg.key "enter")).1.Update envDirty false
        (Msg.key "y")).1).Update envDirty false (Msg.key "q")).2.1 = Cmd.quit ∧
    GitOp.stashPop ∉
      ((mNoSel.Update envDirty false (Msg.key "enter")).2.2 ++
        ((mNoSel.Update envDirty false (Msg.key "enter")).1.Update envDirty false
          (Msg.key "y")).2.2 ++
        ((((mNoSel.Update envDirty false (Msg.key "enter")).1.Update envDirty false
          (Msg.key "y")).1).Update envDirty false (Msg.key "q")).2.2) := by
  decide

/-- C3 amended: when the final queue completion arrives with a stash owed,
the driver pops it exactly once on the transition to Done and clears the
owed flag; with no stash owed no pop is attempted; but if the workflow is
cancelled after stashing (stash accepted with zero branches selected), the
session returns to Browsing still owing the stash and a quit from Browsing
exits without popping. -/
theorem claim_C3 (env : GitEnv) (manualMode : Bool) (m : Model)
    (b e : String) (s : Bool)
    (hlast : m.selectedForActionCount ≤ m.updateIndex + 1) :
    (m.didStash = true →
      (m.Update env manualMode (Msg.branchUpdated b s e)).2.2 = [GitOp.stashPop] ∧
      (m.Update env manualMode (Msg.branchUpdated b s e)).1.didStash = false ∧
      (m.Update env manualMode (Msg.branchUpdated b s e)).1.state =
        ModelState.stateDone) ∧
    (m.didStash = false →
      (m.Update env manualMode (Msg.branchUpdated b s e)).2.2 = [] ∧
      (m.Update env manualMode (Msg.branchUpdated b s e)).1.state =
        ModelState.stateDone) ∧
    (∀ m2 : Model, m2.state = ModelState.stateConfirmingStash →
      env.stashRes = Except.ok () → countSelected m2.branches = 0 →
      (m2.Update env manualMode (Msg.key "y")).2.2 = [GitOp.stashSave] ∧
      (m2.Update env manualMode (Msg.key "y")).1.didStash = true ∧
      (m2.Update env manualMode (Msg.key "y")).1.state =
        ModelState.stateBrowsing) ∧
    (∀ m3 : Model, m3.state = ModelState.stateBrowsing → m3.searchMode = false →
      m3.Update env manualMode (Msg.key "q") = (m3, Cmd.quit, [])) := by
  refine ⟨?_, ?_, ?_, ?_⟩
  · intro hds
    cases s <;> simp [Model.Update, hlast, hds]
  · intro hds
    cases s <;> simp [Model.Update, hlast, hds]
  · intro m2 h1 h2 h3
    simp [Model.Update, Model.handleKeyPress, h1,
      Model.handleConfirmingStashKeys, StashChanges, h2, h3]
  · intro m3 h1 h2
    simp [Model.Update, Model.handleKeyPress, h1, Model.handleBrowsingKeys, h2]

/-- An updating-state model at the last queue position with a stash owed. -/
def mStashRun : Model :=
  { state := ModelState.stateUpdating
    config := cfgMain
    branches :=
      [{ name := "feature-a", selected := true, status := "updated" },
       { name := "feature-b", selected := true }]
    updateIndex := 1
    successCount := 1
    selectedForActionCount := 2
    didStash := true }

theorem claim_C3_witness :
    (mStashRun.Update envOk false (Msg.branchUpdated "feature-b" true "")).2.2 =
      [GitOp.stashPop] ∧
    (mStashRun.Update envOk false (Msg.branchUpdated "feature-b" true "")).1.didStash
      = false ∧
    (mStashRun.Update envOk false (Msg.branchUpdated "feature-b" true "")).1.state =
      ModelState.stateDone ∧
    mNoSel.Update envOk false (Msg.key "q") = (mNoSel, Cmd.quit, []) :=
  have h := claim_C3 envOk false mStashRun "feature-b" "" true (by decide)
  ⟨(h.1 rfl).1, (h.1 rfl).2.1, (h.1 rfl).2.2, h.2.2.2 mNoSel rfl rfl⟩

/-! ## C1 -/

/-- At queue positions after the first, the per-branch command never runs
the base-branch guard: no fetch, no divergence query, no hard reset. -/
theorem updateNextBranch_no_guard (env : GitEnv) (m : Model)
    (h : m.updateIndex ≠ 0) :
    (∀ r b, GitOp.fetch r b ∉ (m.updateNextBranch env).1) ∧
    (∀ b r, GitOp.revListAhead b r ∉ (m.updateNextBranch env).1) ∧
    (∀ r, GitOp.resetHard r ∉ (m.updateNextBranch env).1) := by
  unfold Model.updateNextBranch
  cases hs : nthSelected m.branches m.updateIndex with
  | none => simp
  | some tb =>
    by_cases hc : env.checkoutOk tb.name = false <;>
      by_cases hr : env.rebaseOk tb.name m.config.baseBranch = false <;>
        by_cases hp : env.pushOk "origin" tb.name = false <;>
          simp [h, RebaseBranch, PushBranch, hc, hr, hp]

/-- An updating-state model at queue position 0 of a two-branch queue. -/
def mUpd0 : Model :=
  { state := ModelState.stateUpdating
    config := cfgMain
    branches :=
      [{ name := "feature-a", selected := true },
       { name := "feature-b", selected := true }]
    updateIndex := 0
    selectedForActionCount := 2 }

/-- C1 counterexample: with a two-branch queue and a diverged base branch,
the guard fails at position 0 and is attributed to the first branch, but
the driver does not abort: it stays in Updating, issues the next command,
and the branch at position 1 is checked out, rebased and pushed.  This
refutes the claim that positions after 0 are never attempted and that the
driver transitions straight to Done. -/
theorem claim_C1_counterexample :
    (mUpd0.updateNextBranch envDiverged).2 =
      Msg.branchUpdated "feature-a" false
        (divergedMsg "main" ("upstream" ++ "/" ++ "main")) ∧
    (mUpd0.Update envDiverged false (mUpd0.updateNextBranch envDiverged).2).1.state =
      ModelState.stateUpdating ∧
    (mUpd0.Update envDiverged false (mUpd0.updateNextBranch envDiverged).2).2.1 =
      Cmd.updateNext ∧
    GitOp.checkout "feature-b" ∈
      ((mUpd0.Update envDiverged false
        (mUpd0.updateNextBranch envDiverged).2).1.updateNextBranch envDiverged).1 ∧
    GitOp.rebase "main" ∈
      ((mUpd0.Update envDiverged false
        (mUpd0.updateNextBranch envDiverged).2).1.updateNextBranch envDiverged).1 ∧
    GitOp.push "origin" "feature-b" ∈
      ((mUpd0.Update envDiverged false
        (mUpd0.updateNextBranch envDiverged).2).1.updateNextBranch envDiverged).1 := by
  decide

/-- C1 amended: a base-branch guard failure at queue position 0 is
attributed to the first branch, but it does not abort the remaining queue:
with at least two queued branches the driver records the failure, stays in
its current state, and issues the command for position 1; at positions
after the first the guard is never re-run (no fetch, divergence query or
hard reset), so the later branches are checked out, rebased and pushed
against the stale base.  The driver reaches Done only after every queue
position has reported. -/
theorem claim_C1 (env : GitEnv) (manualMode : Bool) (m : Model)
    (tb : Branch) (b e : String)
    (h0 : m.updateIndex = 0)
    (hn : 2 ≤ m.selectedForActionCount)
    (hsel : nthSelected m.branches 0 = .some tb)
    (hfetch : env.fetchOk m.config.upstreamRemote m.config.baseBranch = true)
    (hguard : (UpdateBaseBranch env m.config.baseBranch m.config.upstreamRemote).2 =
      Except.error e) :
    m.updateNextBranch env =
      ((FetchUpstream env m.config.upstreamRemote m.config.baseBranch).1 ++
        (UpdateBaseBranch env m.config.baseBranch m.config.upstreamRemote).1,
        Msg.branchUpdated tb.name false e) ∧
    m.Update env manualMode (Msg.branchUpdated b false e) =
      ({ m with
          failedBranches := m.failedBranches ++ [b ++ " (" ++ e ++ ")"]
          updateIndex := m.updateIndex + 1 },
        Cmd.updateNext, []) ∧
    (∀ m4 : Model, m4.updateIndex ≠ 0 →
      (∀ r b2, GitOp.fetch r b2 ∉ (m4.updateNextBranch env).1) ∧
      (∀ b2 r2, GitOp.revListAhead b2 r2 ∉ (m4.updateNextBranch env).1) ∧
      (∀ r2, GitOp.resetHard r2 ∉ (m4.updateNextBranch env).1)) := by
  refine ⟨?_, ?_, fun m4 h4 => updateNextBranch_no_guard env m4 h4⟩
  · unfold Model.updateNextBranch
    rw [h0, hsel]
    rcases hU : UpdateBaseBranch env m.config.baseBranch m.config.upstreamRemote
      with ⟨tu, ru⟩
    rw [hU] at hguard
    simp only at hguard
    subst hguard
    simp [FetchUpstream, hfetch, hU]
  · have hlt : ¬ (m.selectedForActionCount ≤ m.updateIndex + 1) := by omega
    simp [Model.Update, hlt]

theorem claim_C1_witness :
    mUpd0.updateNextBranch envDiverged =
      ((FetchUpstream envDiverged mUpd0.config.upstreamRemote
          mUpd0.config.baseBranch).1 ++
        (UpdateBaseBranch envDiverged mUpd0.config.baseBranch
          mUpd0.config.upstreamRemote).1,
        Msg.branchUpdated "feature-a" false
          (divergedMsg "main" ("upstream" ++ "/" ++ "main"))) ∧
    mUpd0.Update envDiverged false
        (Msg.branchUpdated "feature-a" false
          (divergedMsg "main" ("upstream" ++ "/" ++ "main"))) =
      ({ mUpd0 with
          failedBranches := mUpd0.failedBranches ++
            ["feature-a" ++ " (" ++
              divergedMsg "main" ("upstream" ++ "/" ++ "main") ++ ")"]
          updateIndex := mUpd0.updateIndex + 1 },
        Cmd.updateNext, []) :=
  have h := claim_C1 envDiverged false mUpd0 { name := "feature-a", selected := true }
    "feature-a" (divergedMsg "main" ("upstream" ++ "/" ++ "main"))
    rfl (by decide) rfl rfl rfl
  ⟨h.1, h.2.1⟩

end GitSync
